import Mathlib

/-!
Verification of `app/main.py`, a command-line CRUD utility over a PostgreSQL
`students` table.  The Python source is embedded shallowly: each Python
function becomes a Lean definition of the same name; the external PostgreSQL
store (schema, statement semantics) is not part of the repository, so its
behaviour is modelled from the specification where a claim depends on it.
-/

namespace StudentsApp

/-! ## Calendar dates

Modelled from the spec: the external store's `date` column rejects values
that do not parse as a calendar date; the CLI documents the `YYYY-MM-DD`
format.  We parse dash-separated decimal fields and validate them against
the Gregorian calendar (leap years included). -/

/-- Calendar date as year-month-day. -/
structure Date where
  year : Nat
  month : Nat
  day : Nat
deriving DecidableEq, Repr

/-- Gregorian leap-year rule. -/
def isLeapYear (y : Nat) : Bool :=
  y % 4 == 0 && (y % 100 != 0 || y % 400 == 0)

/-- Number of days in a month of a given year. -/
def daysInMonth (y m : Nat) : Nat :=
  if m == 2 then (if isLeapYear y then 29 else 28)
  else if m == 4 || m == 6 || m == 9 || m == 11 then 30
  else 31

/-- A date is valid when the month is 1..12 and the day fits the month. -/
def validDate (d : Date) : Bool :=
  1 ≤ d.month && d.month ≤ 12 && 1 ≤ d.day && d.day ≤ daysInMonth d.year d.month

/-- Split a character list on the dash character. -/
def splitDash : List Char → List (List Char)
  | [] => [[]]
  | c :: cs =>
    if c = '-' then [] :: splitDash cs
    else
      match splitDash cs with
      | [] => [[c]]
      | g :: gs => (c :: g) :: gs

/-- Parse a non-empty all-digit character list as a decimal number. -/
def digitsToNat (cs : List Char) : Option Nat :=
  if cs ≠ [] ∧ cs.all Char.isDigit then
    some (cs.foldl (fun a c => a * 10 + (c.toNat - 48)) 0)
  else none

/-- Modelled from the spec: the store's cast of a text value to a calendar
date.  Accepts `Y-M-D` with decimal fields and a valid Gregorian date. -/
def parseDate (s : String) : Option Date :=
  match splitDash s.toList with
  | [ys, ms, ds] =>
    match digitsToNat ys, digitsToNat ms, digitsToNat ds with
    | some y, some m, some d =>
      if validDate ⟨y, m, d⟩ then some ⟨y, m, d⟩ else none
    | _, _, _ => none
  | _ => none

/-! ## Data model

The `students` table row, as selected by
`SELECT student_id, first_name, last_name, email, enrollment_date`. -/

/-- One row of the `students` table. -/
structure Student where
  student_id : Int
  first_name : String
  last_name : String
  email : String
  enrollment_date : Option Date
deriving DecidableEq, Repr

/-- Modelled from the spec: the persistent store.  `records` is the table
content; `nextId` is the auto-assigned serial for `student_id`. -/
structure DB where
  records : List Student
  nextId : Int
deriving DecidableEq, Repr

/-- The empty store with the serial at 1. -/
def DB.empty : DB := ⟨[], 1⟩

/-! ## Errors

All failures surfaced to `main`'s `except Exception` handler.  The config
failure carries the list of missing variable names, from which its message
is rendered exactly as the source's f-string does. -/

/-- Python's `sep.join(parts)`: the parts joined by the separator. -/
def joinSep (sep : String) : List String → String
  | [] => ""
  | [a] => a
  | a :: rest => a ++ sep ++ joinSep sep rest

/-- Runtime errors raised by configuration resolution or the store. -/
inductive AppError where
  | configError (missing : List String)
  | badPort (s : String)
  | uniqueViolation (email : String)
  | malformedDate (s : String)
deriving DecidableEq, Repr

/-- The message of each error, as `str(e)` would render it; the config
message reproduces the f-string of `get_conn`. -/
def AppError.message : AppError → String
  | .configError missing =>
      "Missing env vars: " ++ joinSep ", " missing ++
        ". Set them in your environment or app/.env"
  | .badPort s => "invalid literal for int() with base 10: " ++ s
  | .uniqueViolation e =>
      "duplicate key value violates unique constraint: email=" ++ e
  | .malformedDate s => "invalid input syntax for type date: " ++ s

/-! ## Connection provider (`get_conn`) -/

/-- The process environment, as read by `os.getenv`. -/
def Env : Type := String → Option String

/-- The five required configuration variables, in source order. -/
def required_vars : List String :=
  ["PGHOST", "PGPORT", "PGUSER", "PGPASSWORD", "PGDATABASE"]

/-- Python truthiness of `os.getenv(v)`: `not os.getenv(v)` is true exactly
when the variable is unset or set to the empty string. -/
def envBlank (env : Env) (v : String) : Bool :=
  match env v with
  | none => true
  | some s => s.isEmpty

/-- The parameters with which `psycopg2.connect` is called.  A `Conn` value
exists only when a connection to the store is actually attempted. -/
structure Conn where
  host : String
  port : Nat
  user : String
  password : String
  dbname : String
deriving DecidableEq, Repr

/-- Embedding of `get_conn`: collect every required variable that is unset
or empty; if any, raise the error naming all of them; otherwise convert the
port with `int(...)` and connect with the resolved parameters. -/
def get_conn (env : Env) : Except AppError Conn :=
  let missing := required_vars.filter (fun v => envBlank env v)
  if missing.isEmpty then
    let portStr := (env "PGPORT").getD ""
    match digitsToNat portStr.toList with
    | none => .error (.badPort portStr)
    | some p =>
      .ok ⟨(env "PGHOST").getD "", p, (env "PGUSER").getD "",
           (env "PGPASSWORD").getD "", (env "PGDATABASE").getD ""⟩
  else .error (.configError missing)

/-! ## Data access operations

Each operation opens a connection via `get_conn` and executes one
parameterized SQL statement.  The statement's effect on the store is
modelled from the spec: `student_id` is the auto-assigned primary key and
`email` carries a unique constraint enforced by the store, so an `INSERT`,
or an `UPDATE` that actually changes a row, fails when it would duplicate
an existing email of another row. -/

/-- Ordering used by `ORDER BY student_id`. -/
def idLE (a b : Student) : Prop := a.student_id ≤ b.student_id

instance : DecidableRel idLE := fun a b => Int.decLe a.student_id b.student_id

instance : IsTotal Student idLE := ⟨fun a b => Int.le_total a.student_id b.student_id⟩

instance : IsTrans Student idLE := ⟨fun _ _ _ h h' => le_trans h h'⟩

/-- Embedding of `getAllStudents`: connect, then
`SELECT student_id, first_name, last_name, email, enrollment_date FROM
students ORDER BY student_id`, returning all rows. -/
def getAllStudents (env : Env) (db : DB) : Except AppError (List Student) :=
  match get_conn env with
  | .error e => .error e
  | .ok _ => .ok (db.records.insertionSort idLE)

/-- Embedding of `addStudent`: connect, then
`INSERT INTO students (first_name, last_name, email, enrollment_date)
VALUES (%s, %s, %s, %s) RETURNING student_id`.  The store casts the bound
date text (failing on a malformed date), checks the unique constraint on
`email`, appends the row under the next serial id and returns that id. -/
def addStudent (env : Env) (first_name last_name email : String)
    (enrollment_date : Option String) (db : DB) : Except AppError (DB × Int) :=
  match get_conn env with
  | .error e => .error e
  | .ok _ =>
    match enrollment_date with
    | some s =>
      match parseDate s with
      | none => .error (.malformedDate s)
      | some dt =>
        if db.records.any (fun r => r.email == email) then
          .error (.uniqueViolation email)
        else
          .ok (⟨db.records ++ [⟨db.nextId, first_name, last_name, email, some dt⟩],
                db.nextId + 1⟩, db.nextId)
    | none =>
      if db.records.any (fun r => r.email == email) then
        .error (.uniqueViolation email)
      else
        .ok (⟨db.records ++ [⟨db.nextId, first_name, last_name, email, none⟩],
              db.nextId + 1⟩, db.nextId)

/-- Embedding of `updateStudentEmail`: connect, then
`UPDATE students SET email = %s WHERE student_id = %s`, returning
`cur.rowcount`, the number of rows matched by the `WHERE` clause.  When no
row matches, no row changes and no constraint is checked; when a row is
rewritten to an email held by a different row, the store's unique
constraint rejects the statement. -/
def updateStudentEmail (env : Env) (student_id : Int) (new_email : String)
    (db : DB) : Except AppError (DB × Nat) :=
  match get_conn env with
  | .error e => .error e
  | .ok _ =>
    let matched := db.records.countP (fun r => r.student_id == student_id)
    if matched == 0 then .ok (db, 0)
    else if db.records.any
        (fun r => r.student_id != student_id && r.email == new_email) then
      .error (.uniqueViolation new_email)
    else
      .ok (⟨db.records.map (fun r =>
              if r.student_id == student_id then { r with email := new_email } else r),
            db.nextId⟩, matched)

/-- Embedding of `deleteStudent`: connect, then
`DELETE FROM students WHERE student_id = %s`, returning `cur.rowcount`,
the number of rows the `WHERE` clause matched and removed. -/
def deleteStudent (env : Env) (student_id : Int) (db : DB) :
    Except AppError (DB × Nat) :=
  match get_conn env with
  | .error e => .error e
  | .ok _ =>
    .ok (⟨db.records.filter (fun r => !(r.student_id == student_id)), db.nextId⟩,
         db.records.countP (fun r => r.student_id == student_id))

/-! ## Table renderer (`print_table`)

The Python function takes a list of dicts sharing the same keys and prints
lines to standard output; the embedding returns the list of printed lines.
Cell values are Python values: ints, strings, dates or `None`. -/

/-- A cell value of a row dict. -/
inductive Value where
  | intV (n : Int)
  | strV (s : String)
  | dateV (d : Date)
  | nullV
deriving DecidableEq, Repr

/-- Left-pad a decimal number with zeros to two digits. -/
def pad2 (n : Nat) : String :=
  if n < 10 then "0" ++ toString n else toString n

/-- Left-pad a decimal number with zeros to four digits. -/
def pad4 (n : Nat) : String :=
  if n < 10 then "000" ++ toString n
  else if n < 100 then "00" ++ toString n
  else if n < 1000 then "0" ++ toString n
  else toString n

/-- Python `str` of a `datetime.date`: ISO `YYYY-MM-DD`. -/
def Date.str (d : Date) : String :=
  pad4 d.year ++ "-" ++ pad2 d.month ++ "-" ++ pad2 d.day

/-- Python `str` of a cell value; `str(None)` is the word `None`, which
`print_table` takes care never to reach for null cells. -/
def Value.str : Value → String
  | .intV n => toString n
  | .strV s => s
  | .dateV d => d.str
  | .nullV => "None"

/-- A row dict: association list from column name to value, in key order. -/
abbrev Row : Type := List (String × Value)

/-- Lookup `r[h]` in a row dict. -/
def getVal (r : Row) (h : String) : Value :=
  (List.lookup h r).getD .nullV

/-- Width contribution of one cell:
`len(str(r[h])) if r[h] is not None else 0`. -/
def cellLen (v : Value) : Nat :=
  if v = .nullV then 0 else v.str.length

/-- Rendered text of one data cell:
`str(r[h]) if r[h] is not None else ''`. -/
def cellStr (v : Value) : String :=
  if v = .nullV then "" else v.str

/-- Column set: keys of the first record, in that record's order. -/
def headersOf (rows : List Row) : List String :=
  (rows.headD []).map Prod.fst

/-- Column widths: start from the header length and fold a `max` with each
row's cell contribution, exactly as the Python loop updates `widths[h]`. -/
def widthOf (rows : List Row) (h : String) : Nat :=
  rows.foldl (fun w r => max w (cellLen (getVal r h))) h.length

/-- One border segment for a column: `char * (widths[h] + 2)`. -/
def seg (rows : List Row) (c : Char) (h : String) : String :=
  String.mk (List.replicate (widthOf rows h + 2) c)

/-- A border line: `+` then the segments joined by `+` then `+`. -/
def borderLine (rows : List Row) (c : Char) : String :=
  "+" ++ joinSep "+" ((headersOf rows).map (seg rows c)) ++ "+"

/-- Left-justification `f"{s:<{w}}"`: pad with spaces up to width `w`. -/
def padCell (s : String) (w : Nat) : String :=
  s ++ String.mk (List.replicate (w - s.length) ' ')

/-- A header or data row line: cells padded to the column width, joined by
`" | "` and wrapped in `"| "` and `" |"`. -/
def rowLine (rows : List Row) (cell : String → String) : String :=
  "| " ++ joinSep " | "
    ((headersOf rows).map (fun h => padCell (cell h) (widthOf rows h))) ++ " |"

/-- Embedding of `print_table`: the sequence of lines printed to standard
output.  Empty input prints the placeholder only; otherwise a `=` border,
the header row, a `=` border, one line per record and a closing `=`
border. -/
def print_table (rows : List Row) : List String :=
  if rows.isEmpty then ["(no rows)"]
  else
    [borderLine rows '=',
     rowLine rows (fun h => h),
     borderLine rows '=']
    ++ rows.map (fun r => rowLine rows (fun h => cellStr (getVal r h)))
    ++ [borderLine rows '=']

/-! ## Command dispatcher (`main`) -/

/-- The row dict built from one selected student record, with the five
columns in `SELECT` order. -/
def studentRow (s : Student) : Row :=
  [("student_id", .intV s.student_id),
   ("first_name", .strV s.first_name),
   ("last_name", .strV s.last_name),
   ("email", .strV s.email),
   ("enrollment_date",
     match s.enrollment_date with
     | some d => .dateV d
     | none => .nullV)]

/-- A parsed subcommand, after `argparse` has enforced the required flags
(so required string arguments are always present, and only `--date` is
optional). -/
inductive Cmd where
  | getAll
  | add (first last email : String) (date : Option String)
  | updateEmail (id : Int) (email : String)
  | delete (id : Int)
deriving DecidableEq, Repr

/-- Observable outcome of one invocation: exit status, lines printed to
standard output, lines printed to standard error, and the store state
after the run. -/
structure RunResult where
  exitCode : Nat
  stdout : List String
  stderr : List String
  db : DB
deriving DecidableEq, Repr

/-- Embedding of `main`'s dispatch: run the operation for the subcommand,
print its status line, re-fetch and render the table; any raised error is
caught by the `except` handler, printed to standard error with the
`ERROR: ` prefix, and the process exits with status 1. -/
def main (cmd : Cmd) (env : Env) (db : DB) : RunResult :=
  match cmd with
  | .getAll =>
    match getAllStudents env db with
    | .error e => ⟨1, [], ["ERROR: " ++ e.message], db⟩
    | .ok rows => ⟨0, print_table (rows.map studentRow), [], db⟩
  | .add f l e d =>
    match addStudent env f l e d db with
    | .error er => ⟨1, [], ["ERROR: " ++ er.message], db⟩
    | .ok (db', newId) =>
      match getAllStudents env db' with
      | .error er =>
        ⟨1, ["Inserted student_id=" ++ toString newId], ["ERROR: " ++ er.message], db'⟩
      | .ok rows =>
        ⟨0, ("Inserted student_id=" ++ toString newId)
              :: print_table (rows.map studentRow), [], db'⟩
  | .updateEmail i e =>
    match updateStudentEmail env i e db with
    | .error er => ⟨1, [], ["ERROR: " ++ er.message], db⟩
    | .ok (db', n) =>
      match getAllStudents env db' with
      | .error er =>
        ⟨1, ["Rows updated: " ++ toString n], ["ERROR: " ++ er.message], db'⟩
      | .ok rows =>
        ⟨0, ("Rows updated: " ++ toString n)
              :: print_table (rows.map studentRow), [], db'⟩
  | .delete i =>
    match deleteStudent env i db with
    | .error er => ⟨1, [], ["ERROR: " ++ er.message], db⟩
    | .ok (db', n) =>
      match getAllStudents env db' with
      | .error er =>
        ⟨1, ["Rows deleted: " ++ toString n], ["ERROR: " ++ er.message], db'⟩
      | .ok rows =>
        ⟨0, ("Rows deleted: " ++ toString n)
              :: print_table (rows.map studentRow), [], db'⟩

/-! ## Connection-lifetime trace

The source acquires every connection with `with get_conn() as conn:` and
contains no `conn.close()` call.  psycopg2's documented context-manager
semantics are that exiting the `with` block commits (on success) or rolls
back (on failure) the transaction but does not close the connection; only
the transaction is scoped.  The trace below records the connection events
of one `getAllStudents` call under those semantics. -/

/-- Connection lifecycle events. -/
inductive ConnEvent where
  | openConn
  | closeConn
deriving DecidableEq, Repr

/-- Modelled from psycopg2's documented semantics of the source's
`with get_conn() as conn:` block: when `get_conn` succeeds a connection is
opened, and leaving the block ends the transaction without closing the
connection; the function returns with no close event emitted.  When
`get_conn` raises, no connection was opened. -/
def getAllStudentsTrace (env : Env) (db : DB) :
    Except AppError (List Student) × List ConnEvent :=
  match get_conn env with
  | .error e => (.error e, [])
  | .ok _ => (getAllStudents env db, [.openConn])

/-! ## Insertion histories and the store invariant -/

/-- One CLI insert request: the three required string flags and the
optional date flag. -/
structure InsertReq where
  first : String
  last : String
  email : String
  date : Option String
deriving DecidableEq, Repr

/-- Effect of one insert request on the store: a successful `addStudent`
replaces the store; a failed one leaves it unchanged. -/
def applyInsert (env : Env) (db : DB) (r : InsertReq) : DB :=
  match addStudent env r.first r.last r.email r.date db with
  | .ok (db', _) => db'
  | .error _ => db

/-- A history of insertions applied in order, starting from `db`. -/
def applyInserts (env : Env) (reqs : List InsertReq) (db : DB) : DB :=
  reqs.foldl (applyInsert env) db

/-- Store invariant: primary keys are pairwise distinct and below the next
serial value. -/
def Inv (db : DB) : Prop :=
  (db.records.map Student.student_id).Nodup ∧
  ∀ s ∈ db.records, s.student_id < db.nextId

theorem Inv_empty : Inv DB.empty :=
  ⟨List.nodup_nil, fun s hs => absurd hs (List.not_mem_nil s)⟩

/-- Appending a fresh row under the current serial preserves the
invariant. -/
theorem Inv_append (db : DB) (s : Student) (hinv : Inv db)
    (hs : s.student_id = db.nextId) :
    Inv ⟨db.records ++ [s], db.nextId + 1⟩ := by
  obtain ⟨hn, hb⟩ := hinv
  constructor
  · rw [List.map_append, List.nodup_append]
    refine ⟨hn, List.nodup_singleton _, ?_⟩
    intro x hx hx'
    rcases List.mem_map.mp hx with ⟨t, ht, rfl⟩
    rcases List.mem_map.mp hx' with ⟨u, hu, hequ⟩
    rcases List.mem_singleton.mp hu with rfl
    exact absurd (hequ ▸ hs ▸ hb t ht) (lt_irrefl _)
  · intro t ht
    rcases List.mem_append.mp ht with h | h
    · exact lt_trans (hb t h) (lt_add_one _)
    · rcases List.mem_singleton.mp h with rfl
      rw [hs]
      exact lt_add_one _

/-- A successful `addStudent` returns the next serial and appends exactly
one row carrying it. -/
theorem addStudent_ok (env : Env) (f l e : String) (d : Option String)
    (db db' : DB) (i : Int)
    (h : addStudent env f l e d db = .ok (db', i)) :
    ∃ dt : Option Date,
      db' = ⟨db.records ++ [⟨db.nextId, f, l, e, dt⟩], db.nextId + 1⟩ ∧
      i = db.nextId := by
  unfold addStudent at h
  cases hc : get_conn env with
  | error er => rw [hc] at h; exact absurd h (by simp)
  | ok c =>
    rw [hc] at h
    dsimp only at h
    cases d with
    | none =>
      dsimp only at h
      by_cases he : db.records.any (fun r => r.email == e)
      · rw [if_pos he] at h
        exact absurd h (by simp)
      · rw [if_neg he] at h
        exact ⟨none, by injection h with h'; injection h' with h1 h2; exact h1 ▸ h2 ▸ ⟨rfl, rfl⟩⟩
    | some s =>
      dsimp only at h
      cases hp : parseDate s with
      | none => rw [hp] at h; exact absurd h (by simp)
      | some dt =>
        rw [hp] at h
        dsimp only at h
        by_cases he : db.records.any (fun r => r.email == e)
        · rw [if_pos he] at h
          exact absurd h (by simp)
        · rw [if_neg he] at h
          exact ⟨some dt, by injection h with h'; injection h' with h1 h2; exact h1 ▸ h2 ▸ ⟨rfl, rfl⟩⟩

/-- One insert request preserves the invariant. -/
theorem Inv_applyInsert (env : Env) (db : DB) (r : InsertReq) (hinv : Inv db) :
    Inv (applyInsert env db r) := by
  unfold applyInsert
  cases h : addStudent env r.first r.last r.email r.date db with
  | error er => exact hinv
  | ok p =>
    obtain ⟨db', i⟩ := p
    dsimp only
    rcases addStudent_ok env r.first r.last r.email r.date db db' i h with
      ⟨dt, hdb, -⟩
    rw [hdb]
    exact Inv_append db _ hinv rfl

/-- Any insertion history preserves the invariant. -/
theorem Inv_applyInserts (env : Env) (reqs : List InsertReq) (db : DB)
    (hinv : Inv db) : Inv (applyInserts env reqs db) := by
  induction reqs generalizing db with
  | nil => exact hinv
  | cons r rs ih =>
    rw [applyInserts, List.foldl_cons]
    exact ih _ (Inv_applyInsert env db r hinv)

/-! ## General lemmas about the embedded operations -/

/-- On an environment whose configuration resolves, `getAllStudents`
returns the table sorted by `student_id`. -/
theorem getAllStudents_ok (env : Env) (db : DB)
    (h : (get_conn env).isOk = true) :
    getAllStudents env db = .ok (db.records.insertionSort idLE) := by
  unfold getAllStudents
  cases hc : get_conn env with
  | error er => rw [hc] at h; exact absurd h (by simp [Except.isOk, Except.toBool])
  | ok c => rfl

/-- A list sorted under `idLE` with pairwise-distinct ids is sorted
strictly. -/
theorem sorted_strict_of_nodup (l : List Student) (hs : l.Sorted idLE)
    (hn : (l.map Student.student_id).Nodup) :
    l.Sorted (fun a b => a.student_id < b.student_id) := by
  rw [List.Nodup, List.pairwise_map] at hn
  exact (List.Pairwise.and hs hn).imp (fun h => lt_of_le_of_ne h.1 h.2)

/-- Folding `max` from a seed computes the maximum of the seed and the
list maximum. -/
theorem foldl_max_eq (l : List Nat) (a : Nat) :
    l.foldl max a = max a (l.foldr max 0) := by
  induction l generalizing a with
  | nil => simp
  | cons x t ih =>
    rw [List.foldl_cons, List.foldr_cons, ih, max_assoc]

/-- When some required variable is blank, `get_conn` raises the config
error carrying the whole filtered list of blank variables. -/
theorem get_conn_blank (env : Env)
    (hne : required_vars.filter (fun w => envBlank env w) ≠ []) :
    get_conn env =
      .error (.configError (required_vars.filter (fun w => envBlank env w))) := by
  unfold get_conn
  cases hf : required_vars.filter (fun w => envBlank env w) with
  | nil => exact absurd hf hne
  | cons a t => simp [get_conn, hf]

/-- In a table with pairwise-distinct ids, exactly one row matches the id
of a member row. -/
theorem countP_id_eq_one (l : List Student)
    (hn : (l.map Student.student_id).Nodup) {r : Student} (hr : r ∈ l) :
    l.countP (fun x => x.student_id == r.student_id) = 1 := by
  induction l with
  | nil => cases hr
  | cons a t ih =>
    rw [List.map_cons, List.nodup_cons] at hn
    rw [List.countP_cons]
    rcases List.mem_cons.mp hr with rfl | hmem
    · have ht : t.countP (fun x => x.student_id == r.student_id) = 0 := by
        rw [List.countP_eq_zero]
        intro x hx heq
        exact hn.1 (List.mem_map.mpr ⟨x, hx, beq_iff_eq.mp heq⟩)
      simp [ht]
    · have hne : (a.student_id == r.student_id) = false := by
        rw [beq_eq_false_iff_ne]
        intro h
        exact hn.1 (List.mem_map.mpr ⟨r, hmem, h.symm⟩)
      rw [hne]
      simp [ih hn.2 hmem]

/-- Length of a separator join: the joined parts plus one separator
between each two consecutive parts. -/
theorem joinSep_length (sep : String) :
    ∀ l : List String,
      (joinSep sep l).length =
        (l.map String.length).sum + sep.length * (l.length - 1)
  | [] => by simp [joinSep]
  | [a] => by simp [joinSep]
  | a :: b :: t => by
    show (a ++ sep ++ joinSep sep (b :: t)).length =
      ((a :: b :: t).map String.length).sum + sep.length * ((a :: b :: t).length - 1)
    rw [String.length_append, String.length_append,
        joinSep_length sep (b :: t)]
    simp only [List.map_cons, List.sum_cons, List.length_cons]
    have h1 : t.length + 1 + 1 - 1 = t.length + 1 := rfl
    have h2 : t.length + 1 - 1 = t.length := rfl
    rw [h1, h2, Nat.mul_succ]
    omega

/-! ## Concrete fixtures used by witnesses and counterexamples -/

/-- A fully populated environment with a numeric port. -/
def env1 : Env := fun v =>
  if v = "PGPORT" then some "5432"
  else if v ∈ required_vars then some "pg" else none

/-- An environment with nothing set. -/
def env0 : Env := fun _ => none

/-- `env1` with the host present but set to the empty string. -/
def envH : Env := fun v => if v = "PGHOST" then some "" else env1 v

/-- A student with no enrollment date. -/
def ada : Student := ⟨1, "Ada", "Lovelace", "ada@example.com", none⟩

/-- A student with an enrollment date. -/
def bob : Student := ⟨2, "Bob", "Byron", "bob@example.com", some ⟨2023, 9, 3⟩⟩

/-- A one-row store. -/
def db1 : DB := ⟨[ada], 2⟩

/-- A two-row store. -/
def db2 : DB := ⟨[ada, bob], 3⟩

/-- The rendered rows of `db2`. -/
def rows1 : List Row := [studentRow ada, studentRow bob]

/-- A two-request insertion history. -/
def reqs1 : List InsertReq :=
  [⟨"Bob", "Byron", "bob@example.com", some "2023-09-03"⟩,
   ⟨"Ada", "Lovelace", "ada@example.com", none⟩]

/-! ## The claims -/

/-- C8: rendering an empty sequence of records prints exactly the single
placeholder line `(no rows)`: one line of output, hence no border lines,
no header row and no data rows. -/
theorem claim_C8_empty_render : print_table ([] : List Row) = ["(no rows)"] := rfl

/-- C7: deleting an id that matches no record returns affected-count 0 and
leaves every record in the table unchanged. -/
theorem claim_C7_delete_missing (env : Env) (db : DB) (id : Int)
    (hconn : (get_conn env).isOk = true)
    (h : ∀ r ∈ db.records, r.student_id ≠ id) :
    deleteStudent env id db = .ok (db, 0) := by
  unfold deleteStudent
  cases hc : get_conn env with
  | error er =>
    rw [hc] at hconn
    exact absurd hconn (by simp [Except.isOk, Except.toBool])
  | ok c =>
    have hf : db.records.filter (fun r => !(r.student_id == id)) = db.records := by
      rw [List.filter_eq_self]
      intro r hr
      simp [h r hr]
    have hcnt : db.records.countP (fun r => r.student_id == id) = 0 := by
      rw [List.countP_eq_zero]
      intro r hr
      simp [h r hr]
    rw [hf, hcnt]

/-- Witness for C7 on a concrete store and a concrete absent id. -/
theorem claim_C7_witness : deleteStudent env1 99 db1 = .ok (db1, 0) :=
  claim_C7_delete_missing env1 db1 99 (by decide) (by decide)

/-- C5: when a required configuration variable is blank, `get_conn` fails
with the config error before any connection parameters are built (no
`Conn` value exists, so no store contact is attempted), and the single
message is rendered from the `missing` list, which contains every blank
required variable, not only the first. -/
theorem claim_C5_config_error (env : Env) (v : String)
    (hv : v ∈ required_vars) (hb : envBlank env v = true) :
    ∃ missing,
      get_conn env = .error (.configError missing) ∧
      missing = required_vars.filter (fun w => envBlank env w) ∧
      (∀ w ∈ required_vars, (envBlank env w = true ↔ w ∈ missing)) ∧
      (AppError.configError missing).message =
        "Missing env vars: " ++ joinSep ", " missing ++
          ". Set them in your environment or app/.env" := by
  have hmem : v ∈ required_vars.filter (fun w => envBlank env w) :=
    List.mem_filter.mpr ⟨hv, hb⟩
  refine ⟨_, get_conn_blank env (List.ne_nil_of_mem hmem), rfl, ?_, rfl⟩
  intro w hw
  exact ⟨fun hbw => List.mem_filter.mpr ⟨hw, hbw⟩,
         fun hm => (List.mem_filter.mp hm).2⟩

/-- Witness for C5: with all five variables absent the config error names
all five, in order. -/
theorem claim_C5_witness :
    get_conn env0 = .error (.configError required_vars) := by
  obtain ⟨missing, h1, h2, -, -⟩ :=
    claim_C5_config_error env0 "PGHOST" (by decide) (by decide)
  rw [h1, h2]
  rfl

/-- C10: a required variable present but set to the empty string is treated
exactly as absent: `get_conn` fails and the missing list carries that
variable's name. -/
theorem claim_C10_empty_var (env : Env) (v : String)
    (hv : v ∈ required_vars) (he : env v = some "") :
    ∃ missing, get_conn env = .error (.configError missing) ∧ v ∈ missing := by
  have hb : envBlank env v = true := by unfold envBlank; rw [he]; decide
  have hmem : v ∈ required_vars.filter (fun w => envBlank env w) :=
    List.mem_filter.mpr ⟨hv, hb⟩
  exact ⟨_, get_conn_blank env (List.ne_nil_of_mem hmem), hmem⟩

/-- Witness for C10 on a concrete environment whose host is the empty
string while everything else is set. -/
theorem claim_C10_witness :
    "PGHOST" ∈ required_vars ∧ (get_conn envH).isOk = false := by
  obtain ⟨missing, h1, -⟩ := claim_C10_empty_var envH "PGHOST" (by decide) (by decide)
  refine ⟨by decide, ?_⟩
  rw [h1]
  rfl

/-- C4 (the code refutes the claim): under psycopg2's documented semantics
the `with get_conn() as conn:` block of `getAllStudents` opens a connection
and returns without closing it — the event trace of a successful call
holds one open event and no close event, so the operation leaves an open
connection behind. -/
theorem claim_C4_conn_left_open (env : Env) (db : DB)
    (hconn : (get_conn env).isOk = true) :
    (getAllStudentsTrace env db).2.count ConnEvent.openConn = 1 ∧
    (getAllStudentsTrace env db).2.count ConnEvent.closeConn = 0 := by
  unfold getAllStudentsTrace
  cases hc : get_conn env with
  | error er =>
    rw [hc] at hconn
    exact absurd hconn (by simp [Except.isOk, Except.toBool])
  | ok c => exact ⟨rfl, rfl⟩

/-- Witness for C4 on a concrete resolvable environment. -/
theorem claim_C4_witness :
    (getAllStudentsTrace env1 db1).2.count ConnEvent.openConn = 1 ∧
    (getAllStudentsTrace env1 db1).2.count ConnEvent.closeConn = 0 :=
  claim_C4_conn_left_open env1 db1 (by decide)

/-- C2: after any history of insertions applied to the empty store,
list-all returns the full table — a permutation of the stored records —
in strictly ascending `student_id` order. -/
theorem claim_C2_listAll_sorted (env : Env) (reqs : List InsertReq)
    (hconn : (get_conn env).isOk = true) :
    ∃ out,
      getAllStudents env (applyInserts env reqs DB.empty) = .ok out ∧
      out.Perm (applyInserts env reqs DB.empty).records ∧
      out.Sorted (fun a b => a.student_id < b.student_id) := by
  refine ⟨_, getAllStudents_ok env _ hconn, List.perm_insertionSort idLE _, ?_⟩
  apply sorted_strict_of_nodup
  · exact List.sorted_insertionSort idLE _
  · exact ((List.perm_insertionSort idLE _).map Student.student_id).nodup_iff.mpr
      (Inv_applyInserts env reqs DB.empty Inv_empty).1

/-- Witness for C2 on a concrete two-insert history. -/
theorem claim_C2_witness :
    (getAllStudents env1 (applyInserts env1 reqs1 DB.empty)).isOk = true := by
  obtain ⟨out, h1, -, -⟩ := claim_C2_listAll_sorted env1 reqs1 (by decide)
  rw [h1]
  rfl

/-- C1 as frozen is refuted: record 1 exists in `db2` and the new email is
non-empty, yet the update raises the store's unique-constraint violation
(the new email belongs to record 2) instead of returning affected-count
1. -/
theorem claim_C1_counterexample :
    db2.records.any (fun r => r.student_id == 1) = true ∧
    ("bob@example.com" ≠ "") ∧
    updateStudentEmail env1 1 "bob@example.com" db2 =
      .error (.uniqueViolation "bob@example.com") :=
  ⟨by decide, by decide, rfl⟩

/-- C1 (amended): on a store with distinct ids and a new email held by no
other record, update-email returns affected-count 0 when the id matches no
record, and affected-count 1 when it matches one; in the latter case a
subsequent list-all contains that record with the new email and all its
other fields unchanged, and every other listed record is a record of the
original table. -/
theorem claim_C1_update_email (env : Env) (db : DB) (id : Int) (email : String)
    (hconn : (get_conn env).isOk = true)
    (hnodup : (db.records.map Student.student_id).Nodup)
    (_hemail : email ≠ "")
    (hfresh : ∀ r ∈ db.records, r.student_id = id ∨ r.email ≠ email) :
    ((∀ r ∈ db.records, r.student_id ≠ id) →
        updateStudentEmail env id email db = .ok (db, 0)) ∧
    (∀ r ∈ db.records, r.student_id = id →
        ∃ rows,
          updateStudentEmail env id email db =
            .ok (⟨db.records.map (fun s =>
                    if s.student_id == id then { s with email := email } else s),
                  db.nextId⟩, 1) ∧
          getAllStudents env
              ⟨db.records.map (fun s =>
                  if s.student_id == id then { s with email := email } else s),
                db.nextId⟩ = .ok rows ∧
          { r with email := email } ∈ rows ∧
          (∀ s ∈ rows, s.student_id ≠ id → s ∈ db.records)) := by
  cases hc : get_conn env with
  | error er =>
    rw [hc] at hconn
    exact absurd hconn (by simp [Except.isOk, Except.toBool])
  | ok c =>
    constructor
    · intro hnone
      have hcnt : db.records.countP (fun r => r.student_id == id) = 0 := by
        rw [List.countP_eq_zero]
        intro r hr
        simp [hnone r hr]
      unfold updateStudentEmail
      rw [hc]
      dsimp only
      rw [hcnt]
      rfl
    · intro r hr hid
      have hcnt : db.records.countP (fun r => r.student_id == id) = 1 := by
        have := countP_id_eq_one db.records hnodup hr
        rwa [hid] at this
      have hany : db.records.any
          (fun s => s.student_id != id && s.email == email) = false := by
        rw [List.any_eq_false]
        intro s hs
        intro hcontra
        rcases (Bool.and_eq_true _ _).mp hcontra with ⟨hsid, hsem⟩
        rcases hfresh s hs with h | h
        · rw [bne_iff_ne] at hsid
          exact hsid h
        · exact h (beq_iff_eq.mp hsem)
      refine ⟨_, ?_, getAllStudents_ok env _ hconn, ?_, ?_⟩
      · unfold updateStudentEmail
        rw [hc]
        dsimp only
        rw [hcnt, hany]
        rfl
      · rw [List.mem_insertionSort]
        refine List.mem_map.mpr ⟨r, hr, ?_⟩
        rw [if_pos (beq_iff_eq.mpr hid)]
      · intro s hs hsid
        rcases List.mem_map.mp ((List.mem_insertionSort idLE).mp hs) with ⟨t, ht, heq⟩
        by_cases hb : t.student_id == id
        · exfalso
          apply hsid
          rw [if_pos hb] at heq
          rw [← heq]
          exact beq_iff_eq.mp hb
        · rw [if_neg hb] at heq
          rw [← heq]
          exact ht

/-- Witness for C1 on a concrete one-row store and a fresh new email. -/
theorem claim_C1_witness :
    (updateStudentEmail env1 1 "new@example.com" db1).isOk = true := by
  obtain ⟨rows, h1, -, -, -⟩ :=
    (claim_C1_update_email env1 db1 1 "new@example.com"
      (by decide) (by decide) (by decide) (by decide)).2 ada (by decide) rfl
  rw [h1]
  rfl

/-- C3 as frozen is refuted: inserting with the required first-name field
equal to the empty string succeeds and adds a record, instead of failing
with an error and adding nothing. -/
theorem claim_C3_counterexample :
    addStudent env1 "" "Lovelace" "ada@example.com" none DB.empty =
      .ok (⟨[⟨1, "", "Lovelace", "ada@example.com", none⟩], 2⟩, 1) := rfl

/-- C3 (amended): when the optional date argument is present but does not
parse as a calendar date, the insert fails with the malformed-date error
and the dispatcher leaves the store unchanged and exits with status 1;
required fields cannot be absent at this interface (the parser enforces
their presence), and an empty string in a required field is accepted: with
the email unused, the insert succeeds and appends the record. -/
theorem claim_C3_insert_validation (env : Env) (f l e : String) (db : DB)
    (hconn : (get_conn env).isOk = true) :
    (∀ s, parseDate s = none →
        addStudent env f l e (some s) db = .error (.malformedDate s) ∧
        (main (.add f l e (some s)) env db).db = db ∧
        (main (.add f l e (some s)) env db).exitCode = 1) ∧
    ((∀ r ∈ db.records, r.email ≠ e) →
        addStudent env f l e none db =
          .ok (⟨db.records ++ [⟨db.nextId, f, l, e, none⟩], db.nextId + 1⟩,
               db.nextId)) := by
  cases hc : get_conn env with
  | error er =>
    rw [hc] at hconn
    exact absurd hconn (by simp [Except.isOk, Except.toBool])
  | ok c =>
    constructor
    · intro s hs
      have hadd : addStudent env f l e (some s) db = .error (.malformedDate s) := by
        unfold addStudent
        rw [hc]
        dsimp only
        rw [hs]
      refine ⟨hadd, ?_, ?_⟩ <;> simp [main, hadd]
    · intro hfresh
      have hany : db.records.any (fun r => r.email == e) = false := by
        rw [List.any_eq_false]
        intro r hr hcontra
        exact hfresh r hr (beq_iff_eq.mp hcontra)
      unfold addStudent
      rw [hc]
      dsimp only
      rw [hany]
      rfl

/-- Witness for C3 on a concrete store: a malformed month is rejected with
no store change, and an empty last name is accepted. -/
theorem claim_C3_witness :
    addStudent env1 "Grace" "Hopper" "grace@example.com" (some "2023-13-01")
        DB.empty = .error (.malformedDate "2023-13-01") ∧
    addStudent env1 "Grace" "" "grace@example.com" none DB.empty =
      .ok (⟨[⟨1, "Grace", "", "grace@example.com", none⟩], 2⟩, 1) :=
  ⟨((claim_C3_insert_validation env1 "Grace" "Hopper" "grace@example.com"
      DB.empty (by decide)).1 "2023-13-01" (by decide)).1,
   (claim_C3_insert_validation env1 "Grace" "" "grace@example.com"
      DB.empty (by decide)).2 (by decide)⟩

/-- C6: for a non-empty sequence of records sharing the same keys, each
column's width equals the maximum of the header length and the lengths of
the string forms of all of the column's values (a null value contributing
0); a null value renders as an all-space (empty) cell, never the word
`None`; each border segment is exactly the column width plus 2 characters
wide; and, for a non-empty column set, a whole border line is the sum of
the padded segment widths plus the separating and closing `+` signs. -/
theorem claim_C6_render_widths (rows : List Row) (_hne : rows ≠ []) :
    (∀ h ∈ headersOf rows,
        widthOf rows h =
          max h.length ((rows.map (fun r => cellLen (getVal r h))).foldr max 0)) ∧
    (∀ h ∈ headersOf rows, ∀ r ∈ rows, getVal r h = .nullV →
        padCell (cellStr (getVal r h)) (widthOf rows h) =
          String.mk (List.replicate (widthOf rows h) ' ')) ∧
    (∀ h ∈ headersOf rows, (seg rows '=' h).length = widthOf rows h + 2) ∧
    (headersOf rows ≠ [] →
        (borderLine rows '=').length =
          ((headersOf rows).map (fun h => widthOf rows h + 2)).sum +
            (headersOf rows).length + 1) := by
  have hseglen : ∀ h, (seg rows '=' h).length = widthOf rows h + 2 := by
    intro h
    show (List.replicate (widthOf rows h + 2) '=').length = widthOf rows h + 2
    exact List.length_replicate _ _
  refine ⟨?_, ?_, fun h _ => hseglen h, ?_⟩
  · intro h _
    unfold widthOf
    rw [← List.foldl_map (fun r => cellLen (getVal r h)) max, foldl_max_eq]
  · intro h _ r _ hnull
    rw [hnull]
    rfl
  · intro hh
    have hmaps : ((headersOf rows).map (seg rows '=')).map String.length =
        (headersOf rows).map (fun h => widthOf rows h + 2) := by
      rw [List.map_map]
      exact List.map_congr_left (fun h _ => hseglen h)
    have hlen : 1 ≤ (headersOf rows).length := by
      cases hE : headersOf rows with
      | nil => exact absurd hE hh
      | cons a t => simp
    have hplus : ("+" : String).length = 1 := rfl
    unfold borderLine
    rw [String.length_append, String.length_append, joinSep_length, hmaps,
        hplus, List.length_map]
    omega

/-- Witness for C6 on the concrete rendered rows of the two-row store,
at the nullable date column. -/
theorem claim_C6_witness :
    widthOf rows1 "enrollment_date" =
      max ("enrollment_date".length)
        ((rows1.map (fun r => cellLen (getVal r "enrollment_date"))).foldr max 0) :=
  (claim_C6_render_widths rows1 (by decide)).1 "enrollment_date" (by decide)

/-- C9: every run of the dispatcher either succeeds with exit status 0 and
nothing on the error stream, or an error raised by configuration
resolution or a data-access operation is caught at the top level: exactly
one line, the error's message prefixed with `ERROR: `, is printed to the
error stream, the exit status is 1, and the store is left as it was (the
operation is attempted exactly once; no retry occurs). -/
theorem claim_C9_dispatch_errors (cmd : Cmd) (env : Env) (db : DB) :
    ((main cmd env db).exitCode = 0 ∧ (main cmd env db).stderr = []) ∨
    (∃ e : AppError,
        (main cmd env db).exitCode = 1 ∧
        (main cmd env db).stderr = ["ERROR: " ++ e.message] ∧
        (main cmd env db).db = db) := by
  cases hc : get_conn env with
  | error er =>
    right
    refine ⟨er, ?_⟩
    cases cmd <;>
      simp [main, getAllStudents, addStudent, updateStudentEmail, deleteStudent, hc]
  | ok c =>
    have hga : ∀ d : DB,
        getAllStudents env d = .ok (d.records.insertionSort idLE) := by
      intro d
      unfold getAllStudents
      rw [hc]
    cases cmd with
    | getAll =>
      left
      simp [main, hga db]
    | add f l e d =>
      cases ha : addStudent env f l e d db with
      | error er =>
        right
        exact ⟨er, by simp [main, ha]⟩
      | ok p =>
        left
        obtain ⟨db', i⟩ := p
        simp [main, ha, hga db']
    | updateEmail i e =>
      cases ha : updateStudentEmail env i e db with
      | error er =>
        right
        exact ⟨er, by simp [main, ha]⟩
      | ok p =>
        left
        obtain ⟨db', n⟩ := p
        simp [main, ha, hga db']
    | delete i =>
      cases ha : deleteStudent env i db with
      | error er =>
        right
        exact ⟨er, by simp [main, ha]⟩
      | ok p =>
        left
        obtain ⟨db', n⟩ := p
        simp [main, ha, hga db']

end StudentsApp
